import Mathlib

/-!
# Verification of the DBHelper read-through cache (src/js/dbhelper.js)

Shallow embedding of the `DBHelper` class of `src/js/dbhelper.js`.

Modelling choices, stated once here:

* IndexedDB is the external storage collaborator.  An object store is
  embedded as an association list of `(key, record)` entries with unique
  keys; `put` (an upsert) removes any entry carrying the same key and
  appends the new record.  Real IndexedDB enumerates `getAll` in key
  order; this embedding enumerates in entry order, and the theorems
  below therefore only rely on facts that are insensitive to that
  difference (membership, counts, exact contents after writes into an
  empty partition).
* The `fetch` network collaborator is embedded as fields of `Env`
  (`remoteRestaurants`, `remoteReviews`, `remoteCreate`): each models the
  settled outcome of the corresponding HTTP request, `Except.error msg`
  standing for a rejected `fetch` (a network-level `TypeError`, embedded
  as `JSError.network msg`).
* `openIDBConnection` resolves with no database handle when
  `navigator.serviceWorker` is absent (`Promise.resolve()`); the handle
  is therefore an `Option IDB` (`Env.conn`), `none` embedding the
  `undefined` handle.
* JavaScript dynamic values that matter here (record ids, which the code
  compares with loose `==`) are embedded as `JSVal`; everything else the
  claims touch is monomorphic (strings, integers).
* A completion callback invocation `cb(error, data)` is embedded as the
  pair `CbCall` of the two arguments actually passed.
-/

namespace DBHelper

/-- A JavaScript primitive value as used for record ids and index keys:
either a number or a string. -/
inductive JSVal where
  | num (n : Int)
  | str (s : String)
deriving DecidableEq

/-- Accumulating decimal parse: `none` as soon as a non-digit appears. -/
def decimalDigitsAux (acc : Nat) : List Char → Option Nat
  | [] => some acc
  | c :: cs =>
    if c.isDigit then decimalDigitsAux (10 * acc + (c.toNat - 48)) cs else none

/-- JS `Number(string)` coercion restricted to the shapes that occur as
ids: the empty string coerces to `0`, an (optionally signed) decimal
integer numeral to its value, anything else to NaN — embedded as
`none`, since NaN is loose-equal to nothing.  (Fractional or
whitespace-padded numerals do not occur as ids and are not
modelled.) -/
def jsStringToNumber (s : String) : Option Int :=
  match s.toList with
  | [] => some 0
  | '-' :: cs =>
    match cs with
    | [] => none
    | _ => (decimalDigitsAux 0 cs).map (fun m => -(m : Int))
  | '+' :: cs =>
    match cs with
    | [] => none
    | _ => (decimalDigitsAux 0 cs).map (fun m => (m : Int))
  | cs => (decimalDigitsAux 0 cs).map (fun m => (m : Int))

/-- JavaScript loose equality `==` restricted to numbers and strings:
same-type comparison is value comparison, number-vs-string converts the
string with `Number` first.  `fetchRestaurantById` compares ids with
this operator (`r.id == id`). -/
def looseEq : JSVal → JSVal → Bool
  | .num a, .num b => a = b
  | .str a, .str b => a = b
  | .num a, .str b =>
    match jsStringToNumber b with
    | some x => a = x
    | none => false
  | .str a, .num b =>
    match jsStringToNumber a with
    | some x => x = b
    | none => false

/-- A restaurant record, restricted to the fields the helper reads:
`id` (the `IDB_OBJECT` key path), `cuisine_type` and `neighborhood`. -/
structure Restaurant where
  id : JSVal
  name : String
  cuisine_type : String
  neighborhood : String
deriving DecidableEq

/-- A review record: `id` (the `IDB_REVIEWS_OBJECT` key path),
`restaurant_id` (the secondary index key), and the two client
timestamps `addReview` stamps on offline submissions (absent before
stamping). -/
structure Review where
  id : JSVal
  restaurant_id : JSVal
  comments : String
  createdAt : Option Int
  updatedAt : Option Int
deriving DecidableEq

/-- IndexedDB `store.put`: upsert by key.  The entry with key `k`, if
present, is replaced; otherwise the record is appended. -/
def storePut {α β : Type} [DecidableEq α] (s : List (α × β)) (k : α) (v : β) :
    List (α × β) :=
  s.filter (fun p => p.1 ≠ k) ++ [(k, v)]

/-- Repeated `store.put`, one per record, keys drawn from the records by
`key` — the shape of both the `data.forEach(restaurant =>
store.put(restaurant))` loop of `saveToIDB`'s default branch and the
`for (let key in data)` loop of `fetchReviewsFromAPI`. -/
def putManyBy {α β : Type} [DecidableEq α] (key : β → α) (s : List (α × β))
    (l : List β) : List (α × β) :=
  l.foldl (fun acc v => storePut acc (key v) v) s

/-- The three object stores created by `openIDBConnection`'s upgrade
callback: `IDB_OBJECT` keyed by `id`, `IDB_REVIEWS_OBJECT` keyed by `id`
with a `restaurant_id` index, and `IDB_REVIEWS_OBJECT_OFFLINE` keyed by
`updatedAt` (a numeric timestamp). -/
structure IDB where
  restaurantStore : List (JSVal × Restaurant)
  reviewsStore : List (JSVal × Review)
  reviewsOfflineStore : List (Int × Review)
deriving DecidableEq

/-- The value passed to `saveToIDB` together with the store it is
directed at: the source dispatches on `storeToSaveInto` and the shape of
`data` differs per branch (a single review for the two review stores, an
array for the default restaurants branch). -/
inductive IDBData where
  | review (r : Review)
  | offlineReview (r : Review)
  | restaurants (rs : List Restaurant)

/-- `saveToIDB(data, storeToSaveInto)`: opens the connection, returns
with no effect when there is no handle (`if (!db) return`), otherwise
upserts into the selected store.  A put into the offline store whose
record lacks the `updatedAt` key path would raise `DataError` and abort
the transaction, leaving the store unchanged; the only call site stamps
`updatedAt` first. -/
def saveToIDB (conn : Option IDB) (data : IDBData) : Option IDB :=
  match conn with
  | none => none
  | some db =>
    match data with
    | .review r => some { db with reviewsStore := storePut db.reviewsStore r.id r }
    | .offlineReview r =>
      match r.updatedAt with
      | some t =>
        some { db with reviewsOfflineStore := storePut db.reviewsOfflineStore t r }
      | none => some db
    | .restaurants rs =>
      some { db with restaurantStore := putManyBy Restaurant.id db.restaurantStore rs }

/-- A JavaScript error value reaching a callback or thrown out of a
helper: the code distinguishes thrown `TypeError`s, unbound-identifier
`ReferenceError`s, rejected `fetch` calls, and plain strings passed as
the error argument. -/
inductive JSError where
  | typeError (msg : String)
  | referenceError (msg : String)
  | network (msg : String)
  | jsString (msg : String)
deriving DecidableEq

/-- One invocation of a completion callback `cb(error, data)`: the two
arguments actually passed, each possibly null/absent. -/
structure CbCall (α : Type) where
  error : Option JSError
  data : Option α
deriving DecidableEq

/-- The environment a call runs in: the IndexedDB handle
`openIDBConnection` resolves with (`none` embeds the `undefined` handle
of the no-service-worker path), and the settled outcomes of the three
remote endpoints. -/
structure Env where
  conn : Option IDB
  remoteRestaurants : Except String (List Restaurant)
  remoteReviews : JSVal → Except String (List Review)
  remoteCreate : Review → Except String Review

/-- The observable outcome of a fetch helper: the callback invocation,
the IndexedDB state after the call, and how many remote requests were
issued. -/
structure FetchResult (α : Type) where
  cb : CbCall α
  conn : Option IDB
  remoteCalls : Nat
deriving DecidableEq

/-- `fetchCachedRestaurants()`: resolves `undefined` with no handle,
otherwise `getAll()` on `IDB_OBJECT`. -/
def fetchCachedRestaurants (conn : Option IDB) : Option (List Restaurant) :=
  conn.map (fun db => db.restaurantStore.map Prod.snd)

/-- `fetchRestaurants(cb)`: reads the cached partition; a non-empty
partition is returned as-is (`if (restaurants.length)`), an empty one
falls through to `fetchRestaurantsFromAPI`, which backfills the store
via `saveToIDB(restaurants)` and yields the remote records.  When the
cached read resolves `undefined` (no handle), `restaurants.length`
throws a `TypeError`, caught by the final `.catch`, which invokes
`cb(error, null)` — no remote request is made on that path. -/
def fetchRestaurants (env : Env) : FetchResult (List Restaurant) :=
  match fetchCachedRestaurants env.conn with
  | none =>
    { cb := ⟨some (.typeError "Cannot read property length of undefined"), none⟩,
      conn := env.conn, remoteCalls := 0 }
  | some cached =>
    if cached.length ≠ 0 then
      { cb := ⟨none, some cached⟩, conn := env.conn, remoteCalls := 0 }
    else
      match env.remoteRestaurants with
      | .ok restaurants =>
        { cb := ⟨none, some restaurants⟩,
          conn := saveToIDB env.conn (.restaurants restaurants), remoteCalls := 1 }
      | .error msg =>
        { cb := ⟨some (.network msg), none⟩, conn := env.conn, remoteCalls := 1 }

/-- `fetchCachedReviews(id)`: resolves `undefined` with no handle,
otherwise `getAll(id)` on the `restaurant_id` index of
`IDB_REVIEWS_OBJECT` — the stored reviews whose index key equals `id`
(IndexedDB key comparison, not loose equality). -/
def fetchCachedReviews (conn : Option IDB) (id : JSVal) : Option (List Review) :=
  conn.map (fun db =>
    (db.reviewsStore.map Prod.snd).filter (fun rv => rv.restaurant_id = id))

/-- `fetchReviews(id, cb)`: same hit/miss policy as `fetchRestaurants`
but per parent id; a miss calls `fetchReviewsFromAPI`, which puts each
returned review into `IDB_REVIEWS_OBJECT` and invokes `cb(null, data)`,
or `cb(e, null)` on a rejected fetch.  An `undefined` cached read makes
`reviews.length` throw, caught by `.catch` which invokes
`cb(error, null)`. -/
def fetchReviews (env : Env) (id : JSVal) : FetchResult (List Review) :=
  match fetchCachedReviews env.conn id with
  | none =>
    { cb := ⟨some (.typeError "Cannot read property length of undefined"), none⟩,
      conn := env.conn, remoteCalls := 0 }
  | some reviews =>
    if reviews.length ≠ 0 then
      { cb := ⟨none, some reviews⟩, conn := env.conn, remoteCalls := 0 }
    else
      match env.remoteReviews id with
      | .ok data =>
        { cb := ⟨none, some data⟩,
          conn := data.foldl (fun c rv => saveToIDB c (.review rv)) env.conn,
          remoteCalls := 1 }
      | .error msg =>
        { cb := ⟨some (.network msg), none⟩, conn := env.conn, remoteCalls := 1 }

/-- `fetchRestaurantById(id, callback)`: delegates to `fetchRestaurants`
and, on success, returns the first record with `r.id == id` (loose
equality) or calls back with the string "Restaurant does not exist".
The final branch is unreachable: `fetchRestaurants` never invokes its
callback with both arguments null, but were it to, `restaurants.find`
would throw a `TypeError` on the undefined data argument. -/
def fetchRestaurantById (env : Env) (id : JSVal) : CbCall Restaurant :=
  match (fetchRestaurants env).cb with
  | ⟨some e, _⟩ => ⟨some e, none⟩
  | ⟨none, some restaurants⟩ =>
    match restaurants.find? (fun r => looseEq r.id id) with
    | some r => ⟨none, some r⟩
    | none => ⟨some (.jsString "Restaurant does not exist"), none⟩
  | ⟨none, none⟩ => ⟨some (.typeError "Cannot read property find of undefined"), none⟩

/-- `fetchRestaurantByCuisine(cuisine, callback)`: filters the fetched
records by `r.cuisine_type == cuisine` (both operands strings, so loose
equality is string equality). -/
def fetchRestaurantByCuisine (env : Env) (cuisine : String) : CbCall (List Restaurant) :=
  match (fetchRestaurants env).cb with
  | ⟨some e, _⟩ => ⟨some e, none⟩
  | ⟨none, some restaurants⟩ =>
    ⟨none, some (restaurants.filter (fun r => r.cuisine_type = cuisine))⟩
  | ⟨none, none⟩ => ⟨some (.typeError "Cannot read property filter of undefined"), none⟩

/-- `fetchRestaurantByNeighborhood(neighborhood, callback)`. -/
def fetchRestaurantByNeighborhood (env : Env) (neighborhood : String) :
    CbCall (List Restaurant) :=
  match (fetchRestaurants env).cb with
  | ⟨some e, _⟩ => ⟨some e, none⟩
  | ⟨none, some restaurants⟩ =>
    ⟨none, some (restaurants.filter (fun r => r.neighborhood = neighborhood))⟩
  | ⟨none, none⟩ => ⟨some (.typeError "Cannot read property filter of undefined"), none⟩

/-- `fetchRestaurantByCuisineAndNeighborhood(cuisine, neighborhood,
callback)`: starts from the full set and applies each filter only when
its argument differs from the sentinel "all", cuisine first. -/
def fetchRestaurantByCuisineAndNeighborhood (env : Env)
    (cuisine neighborhood : String) : CbCall (List Restaurant) :=
  match (fetchRestaurants env).cb with
  | ⟨some e, _⟩ => ⟨some e, none⟩
  | ⟨none, some restaurants⟩ =>
    let results1 :=
      if cuisine ≠ "all" then restaurants.filter (fun r => r.cuisine_type = cuisine)
      else restaurants
    let results2 :=
      if neighborhood ≠ "all" then results1.filter (fun r => r.neighborhood = neighborhood)
      else results1
    ⟨none, some results2⟩
  | ⟨none, none⟩ => ⟨some (.typeError "Cannot read property filter of undefined"), none⟩

/-- Comparison definition following the spec's words, to be measured
against the source order: the same two sentinel-guarded equality
filters applied in the opposite order (neighborhood first). -/
def byNeighborhoodThenCuisine (env : Env) (cuisine neighborhood : String) :
    CbCall (List Restaurant) :=
  match (fetchRestaurants env).cb with
  | ⟨some e, _⟩ => ⟨some e, none⟩
  | ⟨none, some restaurants⟩ =>
    let results1 :=
      if neighborhood ≠ "all" then restaurants.filter (fun r => r.neighborhood = neighborhood)
      else restaurants
    let results2 :=
      if cuisine ≠ "all" then results1.filter (fun r => r.cuisine_type = cuisine)
      else results1
    ⟨none, some results2⟩
  | ⟨none, none⟩ => ⟨some (.typeError "Cannot read property filter of undefined"), none⟩

/-- The duplicate-removal idiom of `fetchNeighborhoods` and
`fetchCuisines`: `arr.filter((v, i) => arr.indexOf(v) == i)` — keep an
element exactly when its position is the first position at which it
occurs. -/
def jsUniqueFilter {α : Type} [DecidableEq α] (l : List α) : List α :=
  (l.enum.filter (fun p => l.indexOf p.2 = p.1)).map Prod.snd

/-- `fetchNeighborhoods(callback)`: maps the fetched records to their
`neighborhood` field (`restaurants.map((v, i) =>
restaurants[i].neighborhood)`) and removes duplicates with
`jsUniqueFilter`. -/
def fetchNeighborhoods (env : Env) : CbCall (List String) :=
  match (fetchRestaurants env).cb with
  | ⟨some e, _⟩ => ⟨some e, none⟩
  | ⟨none, some restaurants⟩ =>
    ⟨none, some (jsUniqueFilter (restaurants.map (fun r => r.neighborhood)))⟩
  | ⟨none, none⟩ => ⟨some (.typeError "Cannot read property map of undefined"), none⟩

/-- `fetchCuisines(callback)`: same shape over `cuisine_type`. -/
def fetchCuisines (env : Env) : CbCall (List String) :=
  match (fetchRestaurants env).cb with
  | ⟨some e, _⟩ => ⟨some e, none⟩
  | ⟨none, some restaurants⟩ =>
    ⟨none, some (jsUniqueFilter (restaurants.map (fun r => r.cuisine_type)))⟩
  | ⟨none, none⟩ => ⟨some (.typeError "Cannot read property map of undefined"), none⟩

/-- The module constant `PORT` (`const PORT = 1337`). -/
def PORT : Int := 1337

/-- The identifier `port` referenced by `addReview`'s URL template
(`http://localhost:${port}/reviews`).  The repository source defines
only the upper-case `PORT`; no binding for `port` exists anywhere in
the module or its import, so the lookup is unbound — embedded as
`none`.  Evaluating the template literal of an unbound identifier in an
ES module throws a `ReferenceError` synchronously, before `fetch` is
called. -/
def port : Option Int := none

/-- The outcome of one `addReview` call: the error it threw
synchronously (if any), the argument of the `cb` invocation (if `cb`
was invoked — the success path calls `cb(null)`, the catch path never
calls `cb`), the store state afterwards, and the number of remote
requests issued. -/
structure AddReviewResult where
  threw : Option JSError
  cbArg : Option (Option JSError)
  conn : Option IDB
  remoteCalls : Nat
deriving DecidableEq

/-- `addReview(data, cb)` with the free identifier `port` abstracted:
when the identifier is unbound the template literal throws a
`ReferenceError` and nothing else happens; when bound, the POST is
issued — on fulfilment the server-returned record is put into
`IDB_REVIEWS_OBJECT` and `cb(null)` is invoked, on rejection the catch
stamps `data.updatedAt` and `data.createdAt` with the current time and
puts the stamped record into `IDB_REVIEWS_OBJECT_OFFLINE` (and never
invokes `cb`). -/
def addReviewWith (portVal : Option Int) (env : Env) (data : Review) (now : Int) :
    AddReviewResult :=
  match portVal with
  | none =>
    { threw := some (.referenceError "port is not defined"), cbArg := none,
      conn := env.conn, remoteCalls := 0 }
  | some _ =>
    match env.remoteCreate data with
    | .ok server =>
      { threw := none, cbArg := some none,
        conn := saveToIDB env.conn (.review server), remoteCalls := 1 }
    | .error _ =>
      let stamped := { data with updatedAt := some now, createdAt := some now }
      { threw := none, cbArg := none,
        conn := saveToIDB env.conn (.offlineReview stamped), remoteCalls := 1 }

/-- `addReview(data, cb)` as the repository ships it: `port` unbound. -/
def addReview (env : Env) (data : Review) (now : Int) : AddReviewResult :=
  addReviewWith port env data now

/-- The not-found error `fetchRestaurantById` passes to its callback. -/
def notFoundError : JSError := .jsString "Restaurant does not exist"

/-- Transport-layer errors: rejected fetches surface as `network`, and
the degraded-storage path surfaces a thrown `TypeError`; logical
absence (`notFoundError`) is neither. -/
def isTransportError : JSError → Bool
  | .network _ => true
  | .typeError _ => true
  | _ => false

/-- The two-channel callback contract of §6: the error argument is null
exactly when the data argument is present. -/
def cbContract {α : Type} (c : CbCall α) : Prop :=
  c.error = none ↔ c.data ≠ none

/-- The number of records in the restaurants partition (0 with no
handle). -/
def restaurantCount (conn : Option IDB) : Nat :=
  (conn.map (fun db => db.restaurantStore.length)).getD 0

/-! ## Association-store lemmas -/

theorem putManyBy_cons {α β : Type} [DecidableEq α] (key : β → α) (s : List (α × β))
    (a : β) (t : List β) :
    putManyBy key s (a :: t) = putManyBy key (storePut s (key a) a) t := rfl

/-- Splitting a batch of puts: the surviving part of the prior store is
exactly the entries whose key is hit by no put, followed by the batch
applied to an empty store. -/
theorem putManyBy_decomp {α β : Type} [DecidableEq α] (key : β → α) (l : List β)
    (s : List (α × β)) :
    putManyBy key s l =
      s.filter (fun p => p.1 ∉ l.map key) ++ putManyBy key [] l := by
  induction l generalizing s with
  | nil => simp [putManyBy]
  | cons a t ih =>
    rw [putManyBy_cons, ih]
    have h2 : putManyBy key [] (a :: t) =
        [(key a, a)].filter (fun p => decide (p.1 ∉ t.map key)) ++ putManyBy key [] t := by
      rw [putManyBy_cons]
      have hnil : storePut ([] : List (α × β)) (key a) a = [(key a, a)] := by
        simp [storePut]
      rw [hnil, ih]
    rw [h2]
    simp only [storePut, List.filter_append, List.filter_filter, List.map_cons,
      List.append_assoc]
    congr 1
    refine List.filter_congr (fun p _ => ?_)
    by_cases h1 : p.1 = key a <;> by_cases hmem : p.1 ∈ t.map key <;>
      simp [h1, hmem]

theorem mem_putManyBy_nil_key {α β : Type} [DecidableEq α] (key : β → α)
    (l : List β) :
    ∀ p ∈ putManyBy key [] l, p.1 ∈ l.map key := by
  induction l with
  | nil => simp [putManyBy]
  | cons a t ih =>
    intro p hp
    rw [putManyBy_cons, putManyBy_decomp] at hp
    rcases List.mem_append.mp hp with h | h
    · have hmem := List.mem_of_mem_filter h
      simp only [storePut, List.filter_nil, List.nil_append, List.mem_singleton] at hmem
      subst hmem
      simp
    · have := ih p h
      simp [this]

/-- Replaying the same batch of puts is a no-op: every key is already
present, so every put replaces. -/
theorem putManyBy_idem {α β : Type} [DecidableEq α] (key : β → α) (l : List β)
    (s : List (α × β)) :
    putManyBy key (putManyBy key s l) l = putManyBy key s l := by
  conv_lhs => rw [putManyBy_decomp, putManyBy_decomp key l s]
  rw [List.filter_append, List.filter_filter]
  have h1 : (putManyBy key [] l).filter (fun p => decide (p.1 ∉ l.map key)) = [] := by
    refine List.filter_eq_nil_iff.mpr (fun p hp => ?_)
    have := mem_putManyBy_nil_key key l p hp
    simp [this]
  rw [h1]
  conv_rhs => rw [putManyBy_decomp]
  simp only [List.append_nil, List.nil_append]
  congr 1
  refine List.filter_congr (fun p _ => ?_)
  by_cases h : p.1 ∈ l.map key <;> simp [h]

/-- Putting records with pairwise distinct keys into an empty store
stores exactly those records, in order. -/
theorem putManyBy_nil_of_nodup {α β : Type} [DecidableEq α] (key : β → α)
    (l : List β) (h : (l.map key).Nodup) :
    putManyBy key [] l = l.map (fun v => (key v, v)) := by
  induction l with
  | nil => rfl
  | cons a t ih =>
    rw [putManyBy_cons, putManyBy_decomp]
    simp only [List.map_cons, List.nodup_cons, List.mem_map] at h
    have hfilter : (storePut ([] : List (α × β)) (key a) a).filter
        (fun p => p.1 ∉ t.map key) = [(key a, a)] := by
      simp only [storePut, List.filter_nil, List.nil_append]
      rw [List.filter_cons]
      simp [List.mem_map, h.1]
    rw [hfilter, ih h.2]
    rfl

theorem snd_putManyBy_nil_of_nodup {α β : Type} [DecidableEq α] (key : β → α)
    (l : List β) (h : (l.map key).Nodup) :
    (putManyBy key [] l).map Prod.snd = l := by
  rw [putManyBy_nil_of_nodup key l h, List.map_map]
  exact List.map_id l

/-- After a batch of puts of records that all satisfy `P` (with pairwise
distinct keys) into a store none of whose records satisfies `P`, the
stored records satisfying `P` are exactly the batch. -/
theorem filter_snd_putManyBy {α β : Type} [DecidableEq α] (key : β → α)
    (P : β → Bool) (s : List (α × β)) (l : List β)
    (hs : ∀ v ∈ s.map Prod.snd, P v = false)
    (hn : (l.map key).Nodup) (hl : ∀ v ∈ l, P v = true) :
    ((putManyBy key s l).map Prod.snd).filter P = l := by
  rw [putManyBy_decomp, List.map_append, List.filter_append,
    snd_putManyBy_nil_of_nodup key l hn]
  have h1 : ((s.filter (fun p => p.1 ∉ l.map key)).map Prod.snd).filter P = [] := by
    refine List.filter_eq_nil_iff.mpr (fun v hv => ?_)
    rcases List.mem_map.mp hv with ⟨p, hp, rfl⟩
    have : p.2 ∈ s.map Prod.snd := List.mem_map.mpr ⟨p, List.mem_of_mem_filter hp, rfl⟩
    simp [hs _ this]
  have h2 : l.filter P = l := List.filter_eq_self.mpr hl
  rw [h1, h2, List.nil_append]

/-! ## Shape of the fetch results -/

/-- `fetchRestaurants` invokes its callback either with an error and no
data or with data and a null error, never with both or neither. -/
theorem fetchRestaurants_cb_shape (env : Env) :
    (∃ e, (fetchRestaurants env).cb = ⟨some e, none⟩) ∨
    ∃ rs, (fetchRestaurants env).cb = ⟨none, some rs⟩ := by
  unfold fetchRestaurants
  split
  · exact Or.inl ⟨_, rfl⟩
  · split
    · exact Or.inr ⟨_, rfl⟩
    · split
      · exact Or.inr ⟨_, rfl⟩
      · exact Or.inl ⟨_, rfl⟩

theorem fetchReviews_cb_shape (env : Env) (id : JSVal) :
    (∃ e, (fetchReviews env id).cb = ⟨some e, none⟩) ∨
    ∃ data, (fetchReviews env id).cb = ⟨none, some data⟩ := by
  unfold fetchReviews
  split
  · exact Or.inl ⟨_, rfl⟩
  · split
    · exact Or.inr ⟨_, rfl⟩
    · split
      · exact Or.inr ⟨_, rfl⟩
      · exact Or.inl ⟨_, rfl⟩

/-! ## Cache-hit policy lemmas -/

/-- A non-empty restaurants partition is returned as-is, with no remote
request and no store write. -/
theorem fetchRestaurants_hit (env : Env) (db : IDB) (h : env.conn = some db)
    (hne : db.restaurantStore ≠ []) :
    fetchRestaurants env =
      ⟨⟨none, some (db.restaurantStore.map Prod.snd)⟩, env.conn, 0⟩ := by
  have hc : fetchCachedRestaurants env.conn = some (db.restaurantStore.map Prod.snd) := by
    rw [h]
    rfl
  have hlen : (db.restaurantStore.map Prod.snd).length ≠ 0 := by
    simp only [ne_eq, List.length_eq_zero, List.map_eq_nil_iff]
    exact hne
  simp only [fetchRestaurants, hc]
  rw [if_pos hlen]

/-- A non-empty per-parent reviews partition is returned as-is, with no
remote request and no store write. -/
theorem fetchReviews_hit (env : Env) (db : IDB) (id : JSVal) (h : env.conn = some db)
    (hne : (db.reviewsStore.map Prod.snd).filter (fun rv => rv.restaurant_id = id) ≠ []) :
    fetchReviews env id =
      ⟨⟨none,
        some ((db.reviewsStore.map Prod.snd).filter (fun rv => rv.restaurant_id = id))⟩,
        env.conn, 0⟩ := by
  have hc : fetchCachedReviews env.conn id =
      some ((db.reviewsStore.map Prod.snd).filter (fun rv => rv.restaurant_id = id)) := by
    rw [h]
    rfl
  have hlen :
      ((db.reviewsStore.map Prod.snd).filter (fun rv => rv.restaurant_id = id)).length ≠ 0 := by
    simp only [ne_eq, List.length_eq_zero]
    exact hne
  simp only [fetchReviews, hc]
  rw [if_pos hlen]

/-- Inversion: a successful `fetchRestaurants` call either hit a
non-empty partition (returned as-is, connection unchanged) or missed an
empty one and served the remote result, backfilling the store. -/
theorem fetchRestaurants_success_inv (env : Env) (rs : List Restaurant)
    (conn1 : Option IDB) (k : Nat)
    (h : fetchRestaurants env = ⟨⟨none, some rs⟩, conn1, k⟩) :
    (∃ db, env.conn = some db ∧ rs = db.restaurantStore.map Prod.snd ∧ rs ≠ [] ∧
      conn1 = env.conn) ∨
    (∃ db, env.conn = some db ∧ db.restaurantStore = [] ∧
      env.remoteRestaurants = Except.ok rs ∧
      conn1 = saveToIDB env.conn (IDBData.restaurants rs)) := by
  unfold fetchRestaurants at h
  split at h
  · simp at h
  · rename_i cached heq
    obtain ⟨db, hdb, hval⟩ := Option.map_eq_some'.mp heq
    split at h
    · rename_i hlen
      left
      simp only [FetchResult.mk.injEq, CbCall.mk.injEq, Option.some.injEq] at h
      have hrs : cached = rs := h.1.2
      refine ⟨db, hdb, ?_, ?_, h.2.1.symm⟩
      · rw [← hrs]
        exact hval.symm
      · rw [← hrs]
        intro hnil
        rw [hnil] at hlen
        exact hlen rfl
    · split at h
      · rename_i hnlen xrem restaurants hr
        right
        simp only [FetchResult.mk.injEq, CbCall.mk.injEq, Option.some.injEq] at h
        have hrs : restaurants = rs := h.1.2
        rw [hrs] at hr
        have hconn : saveToIDB env.conn (IDBData.restaurants rs) = conn1 := by
          rw [← hrs]
          exact h.2.1
        refine ⟨db, hdb, ?_, hr, hconn.symm⟩
        have hc0 : cached = [] := by
          rw [← List.length_eq_zero]
          simpa using hnlen
        rw [hc0] at hval
        exact List.map_eq_nil_iff.mp hval
      · simp at h

/-- Inversion for a successful `fetchReviews` call. -/
theorem fetchReviews_success_inv (env : Env) (id : JSVal) (data : List Review)
    (conn1 : Option IDB) (k : Nat)
    (h : fetchReviews env id = ⟨⟨none, some data⟩, conn1, k⟩) :
    (∃ db, env.conn = some db ∧
      data = (db.reviewsStore.map Prod.snd).filter (fun rv => rv.restaurant_id = id) ∧
      data ≠ [] ∧ conn1 = env.conn) ∨
    (∃ db, env.conn = some db ∧
      (db.reviewsStore.map Prod.snd).filter (fun rv => rv.restaurant_id = id) = [] ∧
      env.remoteReviews id = Except.ok data ∧
      conn1 = data.foldl (fun c rv => saveToIDB c (IDBData.review rv)) env.conn) := by
  unfold fetchReviews at h
  split at h
  · simp at h
  · rename_i reviews heq
    obtain ⟨db, hdb, hval⟩ := Option.map_eq_some'.mp heq
    split at h
    · rename_i hlen
      left
      simp only [FetchResult.mk.injEq, CbCall.mk.injEq, Option.some.injEq] at h
      have hdata : reviews = data := h.1.2
      refine ⟨db, hdb, ?_, ?_, h.2.1.symm⟩
      · rw [← hdata]
        exact hval.symm
      · rw [← hdata]
        intro hnil
        rw [hnil] at hlen
        exact hlen rfl
    · split at h
      · rename_i hnlen xrem rdata hr
        right
        simp only [FetchResult.mk.injEq, CbCall.mk.injEq, Option.some.injEq] at h
        have hdata : rdata = data := h.1.2
        rw [hdata] at hr
        have hconn : data.foldl (fun c rv => saveToIDB c (IDBData.review rv)) env.conn
            = conn1 := by
          rw [← hdata]
          exact h.2.1
        refine ⟨db, hdb, ?_, hr, hconn.symm⟩
        rw [hval]
        rw [← List.length_eq_zero]
        simpa using hnlen
      · simp at h

/-- Putting each review of a batch via `saveToIDB` is the batched upsert
on the reviews partition. -/
theorem foldl_saveReview_some (db : IDB) (data : List Review) :
    data.foldl (fun c rv => saveToIDB c (IDBData.review rv)) (some db) =
      some { db with reviewsStore := putManyBy Review.id db.reviewsStore data } := by
  induction data generalizing db with
  | nil => simp [putManyBy]
  | cons a t ih =>
    rw [List.foldl_cons]
    have h1 : saveToIDB (some db) (IDBData.review a) =
        some { db with reviewsStore := storePut db.reviewsStore a.id a } := rfl
    rw [h1, ih]
    rfl

/-- A second `fetchRestaurants` right after a successful one that left a
populated store returns the very same records with no remote request. -/
theorem fetchRestaurants_second (env : Env) (rs : List Restaurant)
    (conn1 : Option IDB) (k : Nat)
    (h : fetchRestaurants env = ⟨⟨none, some rs⟩, conn1, k⟩)
    (hne : rs ≠ []) (hnodup : (rs.map Restaurant.id).Nodup) :
    fetchRestaurants { env with conn := conn1 } = ⟨⟨none, some rs⟩, conn1, 0⟩ := by
  rcases fetchRestaurants_success_inv env rs conn1 k h with
    ⟨db, hdb, hrs, _, hc1⟩ | ⟨db, hdb, hempty, _, hc1⟩
  · have hstore : db.restaurantStore ≠ [] := by
      intro hnil
      rw [hrs, hnil] at hne
      exact hne rfl
    have := fetchRestaurants_hit { env with conn := conn1 } db (by rw [hc1, hdb]) hstore
    rw [this, ← hrs]
  · have hc1' : conn1 = some { db with restaurantStore := putManyBy Restaurant.id [] rs } := by
      rw [hc1, hdb]
      simp [saveToIDB, hempty]
    have hstore : putManyBy Restaurant.id ([] : List (JSVal × Restaurant)) rs ≠ [] := by
      intro hnil
      have hsnd := snd_putManyBy_nil_of_nodup Restaurant.id rs hnodup
      rw [hnil] at hsnd
      have : rs = [] := by
        simpa using hsnd.symm
      exact hne this
    have := fetchRestaurants_hit { env with conn := conn1 }
      { db with restaurantStore := putManyBy Restaurant.id [] rs } (by rw [hc1']) hstore
    rw [this]
    simp only [snd_putManyBy_nil_of_nodup Restaurant.id rs hnodup]

/-- A second `fetchReviews` for the same parent right after a successful
one returns the very same records with no remote request, provided the
remote payload was parent-scoped with distinct ids. -/
theorem fetchReviews_second (env : Env) (id : JSVal) (data : List Review)
    (conn1 : Option IDB) (k : Nat)
    (h : fetchReviews env id = ⟨⟨none, some data⟩, conn1, k⟩)
    (hne : data ≠ []) (hnodup : (data.map Review.id).Nodup)
    (hpar : ∀ rv ∈ data, rv.restaurant_id = id) :
    fetchReviews { env with conn := conn1 } id = ⟨⟨none, some data⟩, conn1, 0⟩ := by
  rcases fetchReviews_success_inv env id data conn1 k h with
    ⟨db, hdb, hdata, _, hc1⟩ | ⟨db, hdb, hmiss, _, hc1⟩
  · have hfil : (db.reviewsStore.map Prod.snd).filter
        (fun rv => rv.restaurant_id = id) ≠ [] := by
      rw [← hdata]
      exact hne
    have := fetchReviews_hit { env with conn := conn1 } db id (by rw [hc1, hdb]) hfil
    rw [this, ← hdata]
  · have hc1' : conn1 =
        some { db with reviewsStore := putManyBy Review.id db.reviewsStore data } := by
      rw [hc1, hdb, foldl_saveReview_some]
    have hfil : ((putManyBy Review.id db.reviewsStore data).map Prod.snd).filter
        (fun rv => decide (rv.restaurant_id = id)) = data := by
      refine filter_snd_putManyBy Review.id _ db.reviewsStore data ?_ hnodup ?_
      · intro v hv
        by_contra hcon
        simp only [Bool.not_eq_false, decide_eq_true_eq] at hcon
        have : v ∈ (db.reviewsStore.map Prod.snd).filter
            (fun rv => rv.restaurant_id = id) := List.mem_filter.mpr ⟨hv, by simp [hcon]⟩
        rw [hmiss] at this
        exact absurd this (List.not_mem_nil v)
      · intro v hv
        simp [hpar v hv]
    have hfilne : ((putManyBy Review.id db.reviewsStore data).map Prod.snd).filter
        (fun rv => decide (rv.restaurant_id = id)) ≠ [] := by
      rw [hfil]
      exact hne
    have := fetchReviews_hit { env with conn := conn1 }
      { db with reviewsStore := putManyBy Review.id db.reviewsStore data } id
      (by rw [hc1']) hfilne
    rw [this, hfil]

/-! ## C8: backfill idempotence -/

/-- C8 — Backfill idempotence: `saveToIDB`'s default branch (the
`putMany`-style backfill, which upserts each record by its `id` key)
applied twice with the same record set leaves the store — in particular
the collection's record count — unchanged: records are replaced, never
appended as duplicates. -/
theorem backfill_twice_leaves_count_unchanged (conn : Option IDB)
    (rs : List Restaurant) :
    saveToIDB (saveToIDB conn (.restaurants rs)) (.restaurants rs) =
      saveToIDB conn (.restaurants rs) ∧
    restaurantCount (saveToIDB (saveToIDB conn (.restaurants rs)) (.restaurants rs)) =
      restaurantCount (saveToIDB conn (.restaurants rs)) := by
  have h : saveToIDB (saveToIDB conn (.restaurants rs)) (.restaurants rs) =
      saveToIDB conn (.restaurants rs) := by
    cases conn with
    | none => rfl
    | some db =>
      simp only [saveToIDB]
      rw [putManyBy_idem]
  exact ⟨h, by rw [h]⟩

/-! ## Concrete fixtures used by the witnesses -/

def rest1 : Restaurant :=
  { id := .num 1, name := "Mission Chinese Food", cuisine_type := "Asian",
    neighborhood := "Manhattan" }

def rest2 : Restaurant :=
  { id := .num 2, name := "Emily", cuisine_type := "Pizza", neighborhood := "Brooklyn" }

def rev1 : Review :=
  { id := .num 5, restaurant_id := .num 1, comments := "fine", createdAt := none,
    updatedAt := none }

def dbW : IDB :=
  { restaurantStore := [(.num 1, rest1), (.num 2, rest2)],
    reviewsStore := [(.num 5, rev1)],
    reviewsOfflineStore := [] }

/-- An environment with a populated store and an unreachable remote. -/
def envW : Env :=
  { conn := some dbW,
    remoteRestaurants := .error "Failed to fetch",
    remoteReviews := fun _ => .error "Failed to fetch",
    remoteCreate := fun _ => .error "Failed to fetch" }

/-- An environment with no persistent-storage handle (the
no-service-worker path) and a healthy remote. -/
def envNoStorage : Env :=
  { conn := none,
    remoteRestaurants := .ok [rest1, rest2],
    remoteReviews := fun _ => .ok [rev1],
    remoteCreate := fun r => .ok r }

/-! ## C1: cache-hit read-through policy -/

/-- C1 — Cache-hit read-through policy: a non-empty restaurants
partition (resp. per-parent reviews partition) is returned directly by
`fetchRestaurants` (resp. `fetchReviews`) with no remote request; and
after any successful fetch that populated the store (non-empty result,
distinct ids, and — for reviews — parent-scoped records), a second
fetch of the same collection returns the same records with no
additional remote request. -/
theorem cache_hit_read_through :
    (∀ env db, env.conn = some db → db.restaurantStore ≠ [] →
      fetchRestaurants env =
        ⟨⟨none, some (db.restaurantStore.map Prod.snd)⟩, env.conn, 0⟩) ∧
    (∀ env db id, env.conn = some db →
      (db.reviewsStore.map Prod.snd).filter (fun rv => rv.restaurant_id = id) ≠ [] →
      fetchReviews env id =
        ⟨⟨none,
          some ((db.reviewsStore.map Prod.snd).filter (fun rv => rv.restaurant_id = id))⟩,
          env.conn, 0⟩) ∧
    (∀ env rs conn1 k, fetchRestaurants env = ⟨⟨none, some rs⟩, conn1, k⟩ →
      rs ≠ [] → (rs.map Restaurant.id).Nodup →
      fetchRestaurants { env with conn := conn1 } = ⟨⟨none, some rs⟩, conn1, 0⟩) ∧
    (∀ env id data conn1 k, fetchReviews env id = ⟨⟨none, some data⟩, conn1, k⟩ →
      data ≠ [] → (data.map Review.id).Nodup → (∀ rv ∈ data, rv.restaurant_id = id) →
      fetchReviews { env with conn := conn1 } id = ⟨⟨none, some data⟩, conn1, 0⟩) :=
  ⟨fetchRestaurants_hit, fetchReviews_hit, fetchRestaurants_second, fetchReviews_second⟩

/-- Witness: the cache-hit theorem applied to a concrete populated
store. -/
theorem cache_hit_read_through_witness :
    envW.conn = some dbW ∧ dbW.restaurantStore ≠ [] ∧
    fetchRestaurants envW =
      ⟨⟨none, some (dbW.restaurantStore.map Prod.snd)⟩, envW.conn, 0⟩ :=
  ⟨rfl, by decide, cache_hit_read_through.1 envW dbW rfl (by decide)⟩

/-! ## C4: degraded storage mode -/

/-- C4 — the code does not degrade to remote-only reads: with no
storage handle, `fetchCachedRestaurants` resolves `undefined`,
`restaurants.length` throws a `TypeError`, the `.catch` invokes
`cb(error, null)`, and no remote request is made — contradicting the
claimed "reads still succeed from the remote API". -/
theorem degraded_mode_errors_without_remote_call (env : Env) (h : env.conn = none) :
    fetchRestaurants env =
      ⟨⟨some (JSError.typeError "Cannot read property length of undefined"), none⟩,
        none, 0⟩ := by
  simp only [fetchRestaurants, fetchCachedRestaurants, h, Option.map_none']

/-- Witness: the degraded-mode behaviour at a concrete environment with
a healthy remote and no storage handle. -/
theorem degraded_mode_errors_witness :
    envNoStorage.conn = none ∧
    fetchRestaurants envNoStorage =
      ⟨⟨some (JSError.typeError "Cannot read property length of undefined"), none⟩,
        none, 0⟩ :=
  ⟨rfl, degraded_mode_errors_without_remote_call envNoStorage rfl⟩

/-! ## C2 and C3: addReview -/

/-- The stamped copy of a submission: both client timestamps set to the
current time, as done in `addReview`'s catch handler. -/
def stampedReview (data : Review) (now : Int) : Review :=
  { data with updatedAt := some now, createdAt := some now }

/-- Had `port` been bound, a rejected create request would stamp both
timestamps with the current time and store the record in the offline
partition only (keyed by `updatedAt`), never invoking the callback. -/
theorem addReviewWith_bound_offline (p : Int) (env : Env) (db : IDB) (data : Review)
    (now : Int) (msg : String) (hdb : env.conn = some db)
    (hfail : env.remoteCreate data = .error msg) :
    addReviewWith (some p) env data now =
      { threw := none, cbArg := none,
        conn := some { db with
          reviewsOfflineStore :=
            storePut db.reviewsOfflineStore now (stampedReview data now) },
        remoteCalls := 1 } := by
  simp [addReviewWith, hfail, hdb, saveToIDB, stampedReview]

/-- Had `port` been bound, a fulfilled create request would store the
server-returned record in the normal reviews partition keyed by its
server-assigned id and invoke `cb(null)`. -/
theorem addReviewWith_bound_online (p : Int) (env : Env) (db : IDB)
    (data server : Review) (now : Int) (hdb : env.conn = some db)
    (hok : env.remoteCreate data = .ok server) :
    addReviewWith (some p) env data now =
      { threw := none, cbArg := some none,
        conn := some { db with reviewsStore := storePut db.reviewsStore server.id server },
        remoteCalls := 1 } := by
  simp [addReviewWith, hok, hdb, saveToIDB]

/-- C2 — the offline-buffering path is unreachable in the shipped code:
every `addReview` call throws `ReferenceError: port is not defined`
while evaluating the URL template, before any request is issued; no
record is stamped, no store partition (in particular the pending
offline partition) changes, and the callback is never invoked. -/
theorem addReview_throws_before_offline_buffering (env : Env) (data : Review)
    (now : Int) :
    addReview env data now =
      { threw := some (JSError.referenceError "port is not defined"), cbArg := none,
        conn := env.conn, remoteCalls := 0 } := rfl

/-- C3 — the online-visibility path is likewise unreachable: `addReview`
throws before the create request, so the normal reviews partition is
never written and the callback never invoked, even when the remote
would accept the record. -/
theorem addReview_never_writes_normal_collection (env : Env) (data : Review)
    (now : Int) :
    (addReview env data now).conn.map IDB.reviewsStore =
      env.conn.map IDB.reviewsStore ∧
    (addReview env data now).cbArg = none ∧
    (addReview env data now).remoteCalls = 0 ∧
    (addReview env data now).threw =
      some (JSError.referenceError "port is not defined") :=
  ⟨rfl, rfl, rfl, rfl⟩

/-! ## C5: sentinel-filter composition -/

/-- C5 — Sentinel-filter composition: with both arguments "all" the
combined query returns the full unfiltered set (the plain
`fetchRestaurants` callback); with one real filter and the other "all"
it coincides with the corresponding single-filter query; and applying
the two equality filters in either order yields the same result. -/
theorem sentinel_filter_composition :
    (∀ env, fetchRestaurantByCuisineAndNeighborhood env "all" "all" =
      (fetchRestaurants env).cb) ∧
    (∀ env c, c ≠ "all" → fetchRestaurantByCuisineAndNeighborhood env c "all" =
      fetchRestaurantByCuisine env c) ∧
    (∀ env n, n ≠ "all" → fetchRestaurantByCuisineAndNeighborhood env "all" n =
      fetchRestaurantByNeighborhood env n) ∧
    (∀ env c n, fetchRestaurantByCuisineAndNeighborhood env c n =
      byNeighborhoodThenCuisine env c n) := by
  refine ⟨?_, ?_, ?_, ?_⟩
  · intro env
    rcases fetchRestaurants_cb_shape env with ⟨e, he⟩ | ⟨rs, hrs⟩
    · simp [fetchRestaurantByCuisineAndNeighborhood, he]
    · simp [fetchRestaurantByCuisineAndNeighborhood, hrs]
  · intro env c hc
    rcases fetchRestaurants_cb_shape env with ⟨e, he⟩ | ⟨rs, hrs⟩
    · simp [fetchRestaurantByCuisineAndNeighborhood, fetchRestaurantByCuisine, he]
    · simp [fetchRestaurantByCuisineAndNeighborhood, fetchRestaurantByCuisine, hrs, hc]
  · intro env n hn
    rcases fetchRestaurants_cb_shape env with ⟨e, he⟩ | ⟨rs, hrs⟩
    · simp [fetchRestaurantByCuisineAndNeighborhood, fetchRestaurantByNeighborhood, he]
    · simp [fetchRestaurantByCuisineAndNeighborhood, fetchRestaurantByNeighborhood, hrs, hn]
  · intro env c n
    rcases fetchRestaurants_cb_shape env with ⟨e, he⟩ | ⟨rs, hrs⟩
    · simp [fetchRestaurantByCuisineAndNeighborhood, byNeighborhoodThenCuisine, he]
    · by_cases hc : c = "all" <;> by_cases hn : n = "all" <;>
        (simp only [fetchRestaurantByCuisineAndNeighborhood, byNeighborhoodThenCuisine,
          hrs, hc, hn, ne_eq, not_true_eq_false, not_false_eq_true, if_true, if_false,
          ite_not, List.filter_filter, CbCall.mk.injEq, Option.some.injEq, true_and]
         try exact List.filter_congr (fun a _ => Bool.and_comm _ _))

/-- Witness: the sentinel-composition theorem applied at a concrete
environment and a concrete non-sentinel cuisine. -/
theorem sentinel_filter_composition_witness :
    ("Pizza" : String) ≠ "all" ∧
    fetchRestaurantByCuisineAndNeighborhood envW "Pizza" "all" =
      fetchRestaurantByCuisine envW "Pizza" :=
  ⟨by decide, sentinel_filter_composition.2.1 envW "Pizza" (by decide)⟩

/-! ## C6: stable deduplication -/

/-- The dedup idiom keeps exactly the values of the input. -/
theorem jsUniqueFilter_mem {α : Type} [DecidableEq α] (l : List α) (v : α) :
    v ∈ jsUniqueFilter l ↔ v ∈ l := by
  constructor
  · intro hv
    unfold jsUniqueFilter at hv
    rcases List.mem_map.mp hv with ⟨p, hp, rfl⟩
    exact List.snd_mem_of_mem_enumFrom (List.mem_of_mem_filter hp)
  · intro hv
    unfold jsUniqueFilter
    refine List.mem_map.mpr ⟨(l.indexOf v, v), List.mem_filter.mpr ⟨?_, by simp⟩, rfl⟩
    rw [List.mk_mem_enum_iff_getElem?]
    exact List.getElem?_indexOf hv

/-- The kept values are listed in strictly increasing order of their
first-occurrence position — i.e. in order of first appearance. -/
theorem jsUniqueFilter_sorted {α : Type} [DecidableEq α] (l : List α) :
    ((jsUniqueFilter l).map (fun v => l.indexOf v)).Sorted (· < ·) := by
  unfold jsUniqueFilter
  rw [List.map_map]
  have hmap : (l.enum.filter (fun p => decide (l.indexOf p.2 = p.1))).map
      ((fun v => l.indexOf v) ∘ Prod.snd) =
      (l.enum.filter (fun p => decide (l.indexOf p.2 = p.1))).map Prod.fst := by
    refine List.map_congr_left (fun p hp => ?_)
    have := List.of_mem_filter hp
    simpa using this
  rw [hmap]
  have hsub : List.Sublist
      ((l.enum.filter (fun p => decide (l.indexOf p.2 = p.1))).map Prod.fst)
      (l.enum.map Prod.fst) := (List.filter_sublist _).map Prod.fst
  have hrange : l.enum.map Prod.fst = List.range l.length := by
    rw [List.enum_eq_enumFrom, List.enumFrom_map_fst, List.range_eq_range']
  rw [hrange] at hsub
  exact List.Pairwise.sublist hsub (List.sorted_lt_range l.length)

/-- Each distinct value is kept exactly once. -/
theorem jsUniqueFilter_nodup {α : Type} [DecidableEq α] (l : List α) :
    (jsUniqueFilter l).Nodup := by
  have hs := jsUniqueFilter_sorted l
  have hmapnodup : ((jsUniqueFilter l).map (fun v => l.indexOf v)).Nodup :=
    hs.imp (fun h => Nat.ne_of_lt h)
  exact List.Nodup.of_map _ hmapnodup

/-- C6 — Stable deduplication: the dedup idiom shared by
`fetchNeighborhoods` and `fetchCuisines` returns each distinct value
exactly once (`Nodup`, same membership), in order of first appearance
(the first-occurrence positions are strictly increasing, not sorted by
value); on the spec's example, field values A,B,A,C,B yield A,B,C; and
both fetch helpers apply exactly this idiom to the mapped field
values. -/
theorem facet_lists_stable_dedup :
    (∀ (l : List String) (v : String), v ∈ jsUniqueFilter l ↔ v ∈ l) ∧
    (∀ l : List String, (jsUniqueFilter l).Nodup) ∧
    (∀ l : List String, ((jsUniqueFilter l).map (fun v => l.indexOf v)).Sorted (· < ·)) ∧
    jsUniqueFilter ["A", "B", "A", "C", "B"] = ["A", "B", "C"] ∧
    (∀ env rs, (fetchRestaurants env).cb = ⟨none, some rs⟩ →
      fetchNeighborhoods env =
        ⟨none, some (jsUniqueFilter (rs.map (fun r => r.neighborhood)))⟩ ∧
      fetchCuisines env =
        ⟨none, some (jsUniqueFilter (rs.map (fun r => r.cuisine_type)))⟩) := by
  refine ⟨fun l v => jsUniqueFilter_mem l v, fun l => jsUniqueFilter_nodup l,
    fun l => jsUniqueFilter_sorted l, by decide, fun env rs h => ⟨?_, ?_⟩⟩
  · simp [fetchNeighborhoods, h]
  · simp [fetchCuisines, h]

/-- Witness: the dedup theorem's fetch component applied at a concrete
populated store. -/
theorem facet_lists_stable_dedup_witness :
    (fetchRestaurants envW).cb = ⟨none, some [rest1, rest2]⟩ ∧
    (fetchNeighborhoods envW =
      ⟨none, some (jsUniqueFilter ([rest1, rest2].map (fun r => r.neighborhood)))⟩ ∧
     fetchCuisines envW =
      ⟨none, some (jsUniqueFilter ([rest1, rest2].map (fun r => r.cuisine_type)))⟩) :=
  ⟨rfl, facet_lists_stable_dedup.2.2.2.2 envW [rest1, rest2] rfl⟩

/-! ## C7: byId lookup -/

/-- `find?` returns the first match: the list splits into a prefix with
no match, the result, and a remainder. -/
theorem find?_first_split {α : Type} (p : α → Bool) (l : List α) (r : α)
    (h : l.find? p = some r) :
    ∃ pre post, l = pre ++ r :: post ∧ p r = true ∧ ∀ x ∈ pre, p x = false := by
  induction l with
  | nil => simp at h
  | cons a t ih =>
    rw [List.find?_cons] at h
    cases hpa : p a with
    | true =>
      rw [hpa] at h
      simp only [cond_true, Option.some.injEq] at h
      refine ⟨[], t, ?_, by rw [← h]; exact hpa, by simp⟩
      rw [h]
      rfl
    | false =>
      rw [hpa] at h
      simp only [cond_false] at h
      obtain ⟨pre, post, hsplit, hr, hpre⟩ := ih h
      refine ⟨a :: pre, post, by rw [hsplit]; rfl, hr, ?_⟩
      intro x hx
      rcases List.mem_cons.mp hx with rfl | hx2
      · exact hpa
      · exact hpre x hx2

/-- C7 — byId lookup: on a successful fetch, `fetchRestaurantById`
returns the first record whose id loosely matches (no earlier record
matches); when some record matches it returns a record; when none
matches it calls back with the string "Restaurant does not exist",
which is not a transport error. -/
theorem byId_first_match_or_not_found :
    (∀ env id rs, (fetchRestaurants env).cb = ⟨none, some rs⟩ →
      ((∀ r, fetchRestaurantById env id = ⟨none, some r⟩ →
        ∃ pre post, rs = pre ++ r :: post ∧ looseEq r.id id = true ∧
          ∀ x ∈ pre, looseEq x.id id = false) ∧
       ((∃ x, x ∈ rs ∧ looseEq x.id id = true) →
        ∃ r, fetchRestaurantById env id = ⟨none, some r⟩) ∧
       ((∀ x ∈ rs, looseEq x.id id = false) →
        fetchRestaurantById env id = ⟨some notFoundError, none⟩))) ∧
    isTransportError notFoundError = false := by
  refine ⟨fun env id rs h => ⟨?_, ?_, ?_⟩, rfl⟩
  · intro r hr
    simp only [fetchRestaurantById, h] at hr
    cases hf : rs.find? (fun x => looseEq x.id id) with
    | none =>
      rw [hf] at hr
      simp at hr
    | some r0 =>
      rw [hf] at hr
      simp only [CbCall.mk.injEq, Option.some.injEq, true_and] at hr
      rw [← hr]
      exact find?_first_split _ rs r0 hf
  · intro hex
    have hsome : (rs.find? (fun x => looseEq x.id id)).isSome :=
      List.find?_isSome.mpr hex
    obtain ⟨r0, hf⟩ := Option.isSome_iff_exists.mp hsome
    exact ⟨r0, by simp [fetchRestaurantById, h, hf]⟩
  · intro hall
    have hnone : rs.find? (fun x => looseEq x.id id) = none :=
      List.find?_eq_none.mpr (fun x hx => by simp [hall x hx])
    simp [fetchRestaurantById, h, hnone, notFoundError]

/-- Witness: a lookup with an id matching no record reports the
not-found error. -/
theorem byId_not_found_witness :
    (fetchRestaurants envW).cb = ⟨none, some [rest1, rest2]⟩ ∧
    (∀ x ∈ [rest1, rest2], looseEq x.id (.num 99) = false) ∧
    fetchRestaurantById envW (.num 99) = ⟨some notFoundError, none⟩ :=
  ⟨rfl, by decide,
    (byId_first_match_or_not_found.1 envW (.num 99) [rest1, rest2] rfl).2.2 (by decide)⟩

/-! ## C9: two-channel callback contract -/

theorem cbContract_error {α : Type} (e : JSError) :
    cbContract (⟨some e, none⟩ : CbCall α) := by
  simp [cbContract]

theorem cbContract_ok {α : Type} (d : α) :
    cbContract (⟨none, some d⟩ : CbCall α) := by
  simp [cbContract]

/-- C9 — Two-channel callback contract: every read operation invokes
its callback with error null exactly when data is present — exactly one
of the two arguments is non-null. -/
theorem read_callback_contract :
    (∀ env, cbContract (fetchRestaurants env).cb) ∧
    (∀ env id, cbContract (fetchReviews env id).cb) ∧
    (∀ env id, cbContract (fetchRestaurantById env id)) ∧
    (∀ env c, cbContract (fetchRestaurantByCuisine env c)) ∧
    (∀ env n, cbContract (fetchRestaurantByNeighborhood env n)) ∧
    (∀ env c n, cbContract (fetchRestaurantByCuisineAndNeighborhood env c n)) ∧
    (∀ env, cbContract (fetchNeighborhoods env)) ∧
    (∀ env, cbContract (fetchCuisines env)) := by
  refine ⟨?_, ?_, ?_, ?_, ?_, ?_, ?_, ?_⟩
  · intro env
    rcases fetchRestaurants_cb_shape env with ⟨e, he⟩ | ⟨rs, hrs⟩
    · rw [he]
      exact cbContract_error e
    · rw [hrs]
      exact cbContract_ok rs
  · intro env id
    rcases fetchReviews_cb_shape env id with ⟨e, he⟩ | ⟨data, hd⟩
    · rw [he]
      exact cbContract_error e
    · rw [hd]
      exact cbContract_ok data
  · intro env id
    rcases fetchRestaurants_cb_shape env with ⟨e, he⟩ | ⟨rs, hrs⟩
    · simp only [fetchRestaurantById, he]
      exact cbContract_error e
    · simp only [fetchRestaurantById, hrs]
      cases hf : rs.find? (fun x => looseEq x.id id) with
      | none => exact cbContract_error notFoundError
      | some r => exact cbContract_ok r
  · intro env c
    rcases fetchRestaurants_cb_shape env with ⟨e, he⟩ | ⟨rs, hrs⟩
    · simp only [fetchRestaurantByCuisine, he]
      exact cbContract_error e
    · simp only [fetchRestaurantByCuisine, hrs]
      exact cbContract_ok _
  · intro env n
    rcases fetchRestaurants_cb_shape env with ⟨e, he⟩ | ⟨rs, hrs⟩
    · simp only [fetchRestaurantByNeighborhood, he]
      exact cbContract_error e
    · simp only [fetchRestaurantByNeighborhood, hrs]
      exact cbContract_ok _
  · intro env c n
    rcases fetchRestaurants_cb_shape env with ⟨e, he⟩ | ⟨rs, hrs⟩
    · simp only [fetchRestaurantByCuisineAndNeighborhood, he]
      exact cbContract_error e
    · simp only [fetchRestaurantByCuisineAndNeighborhood, hrs]
      exact cbContract_ok _
  · intro env
    rcases fetchRestaurants_cb_shape env with ⟨e, he⟩ | ⟨rs, hrs⟩
    · simp only [fetchNeighborhoods, he]
      exact cbContract_error e
    · simp only [fetchNeighborhoods, hrs]
      exact cbContract_ok _
  · intro env
    rcases fetchRestaurants_cb_shape env with ⟨e, he⟩ | ⟨rs, hrs⟩
    · simp only [fetchCuisines, he]
      exact cbContract_error e
    · simp only [fetchCuisines, hrs]
      exact cbContract_ok _

/-! ## C10: loose id matching in byId -/

/-- C10 — Loose id matching: because `fetchRestaurantById` compares ids
with JavaScript's loose `==`, a lookup with a string id whose numeric
value equals a record's numeric id returns a (loosely) matching record
rather than the not-found error; when that record is the only loose
match, it is returned itself. -/
theorem byId_loose_string_lookup (env : Env) (rs : List Restaurant) (r : Restaurant)
    (n : Int) (s : String)
    (hfetch : (fetchRestaurants env).cb = ⟨none, some rs⟩)
    (hr : r ∈ rs) (hid : r.id = .num n) (hs : jsStringToNumber s = some n) :
    (∃ r0, fetchRestaurantById env (.str s) = ⟨none, some r0⟩ ∧ r0 ∈ rs ∧
      looseEq r0.id (.str s) = true) ∧
    ((∀ x, x ∈ rs → looseEq x.id (.str s) = true → x = r) →
      fetchRestaurantById env (.str s) = ⟨none, some r⟩) := by
  have hmatch : looseEq r.id (.str s) = true := by
    rw [hid]
    simp [looseEq, hs]
  have hsome : (rs.find? (fun x => looseEq x.id (.str s))).isSome :=
    List.find?_isSome.mpr ⟨r, hr, hmatch⟩
  obtain ⟨r0, hf⟩ := Option.isSome_iff_exists.mp hsome
  have hp0 := List.find?_some hf
  constructor
  · exact ⟨r0, by simp [fetchRestaurantById, hfetch, hf],
      List.mem_of_find?_eq_some hf, hp0⟩
  · intro huniq
    have : r0 = r := huniq r0 (List.mem_of_find?_eq_some hf) hp0
    rw [← this]
    simp [fetchRestaurantById, hfetch, hf]

/-- Witness: looking up the restaurant with numeric id 1 via the string
"1" finds it. -/
theorem byId_loose_string_lookup_witness :
    (fetchRestaurants envW).cb = ⟨none, some [rest1, rest2]⟩ ∧
    rest1 ∈ [rest1, rest2] ∧ rest1.id = .num 1 ∧ jsStringToNumber "1" = some 1 ∧
    ((∃ r0, fetchRestaurantById envW (.str "1") = ⟨none, some r0⟩ ∧
      r0 ∈ [rest1, rest2] ∧ looseEq r0.id (.str "1") = true) ∧
     ((∀ x, x ∈ [rest1, rest2] → looseEq x.id (.str "1") = true → x = rest1) →
      fetchRestaurantById envW (.str "1") = ⟨none, some rest1⟩)) :=
  ⟨rfl, by decide, by decide, by decide,
    byId_loose_string_lookup envW [rest1, rest2] rest1 1 "1" rfl (by decide)
      (by decide) (by decide)⟩

end DBHelper
